import Mathlib

/-
Verification development for the jobko_FirstVVIP scraper
(src/jobko_FirstVVIP.py).

The Python source is shallowly embedded below: each definition carries a
reference to the source function or lines it translates.  Library calls of
the Python standard library (str.strip, str.lower, str.replace,
str.startswith, re.findall with the single-quote literal pattern,
html.unescape) are given executable Lean models over the underlying
character lists.
-/

/-! ## String utilities modelling the Python string operations -/

/-- The single-quote character, written via its code point. -/
def quoteChar : Char := Char.ofNat 39

/-- The underscore character, written via its code point. -/
def underscoreChar : Char := Char.ofNat 95

/-- Model of Python str.strip(): drop whitespace from both ends. -/
def pyStrip (s : String) : String :=
  ⟨(((s.data.dropWhile Char.isWhitespace).reverse.dropWhile Char.isWhitespace).reverse)⟩

/-- Model of Python str.lower() (per-character lowering). -/
def pyLower (s : String) : String :=
  ⟨s.data.map Char.toLower⟩

/-- Model of Python str.startswith(p). -/
def pyStartsWith (s p : String) : Bool :=
  p.data.isPrefixOf s.data

/-- Model of the Python membership test (single character) c in s. -/
def pyHasChar (s : String) (c : Char) : Bool :=
  s.data.contains c

/-- Fuelled replacement of every non-overlapping occurrence of pat
(left to right), the semantics of Python str.replace for a non-empty
pattern.  Structural recursion on the fuel keeps it kernel-reducible;
fuel = length of the list always suffices. -/
def replaceFuel (pat repl : List Char) : Nat → List Char → List Char
  | _, [] => []
  | 0, l => l
  | Nat.succ n, a :: t =>
      if pat ≠ [] ∧ pat.isPrefixOf (a :: t) then
        repl ++ replaceFuel pat repl n (t.drop (pat.length - 1))
      else
        a :: replaceFuel pat repl n t

/-- Model of Python s.replace(pat, repl) for a non-empty pattern. -/
def pyReplace (s pat repl : String) : String :=
  ⟨replaceFuel pat.data repl.data s.data.length s.data⟩

/-- Model of Python html.unescape restricted to the basic named and
numeric entities (the only ones the embedded payloads use). -/
def htmlUnescape (s : String) : String :=
  pyReplace (pyReplace (pyReplace (pyReplace (pyReplace s "&lt;" "<") "&gt;" ">")
    "&quot;" "\"") "&#39;" (String.singleton quoteChar)) "&amp;" "&"

/-- Split a character list at every occurrence of the character c
(model of Python str.split(c) boundaries). -/
def splitOnChar (c : Char) : List Char → List (List Char)
  | [] => [[]]
  | a :: t =>
      let r := splitOnChar c t
      if a = c then [] :: r
      else
        match r with
        | [] => [[a]]
        | h :: t2 => (a :: h) :: t2

/-- Given the parts of a string split on single quotes, the substrings
matched by the Python regex pattern of a quoted literal (source line 159:
re.findall of the quoted-group pattern over the onclick text): the parts
at odd positions that are followed by a closing quote. -/
def quotedLits : List (List Char) → List (List Char)
  | _ :: lit :: rest => if rest.isEmpty then [] else lit :: quotedLits rest
  | _ => []

/-- The last single-quoted literal of a string, as the Python code takes
literals[-1] of the re.findall result (source lines 159-162). -/
def lastQuoted (s : String) : Option String :=
  ((quotedLits (splitOnChar quoteChar s.data)).getLast?).map (fun l => ⟨l⟩)

/-- Python truthiness of an optional string: None and the empty string
are falsy. -/
def pyTruthy : Option String → Bool
  | none => false
  | some s => s ≠ ""

/-! ## Listing record (the rows built at source lines 291-301) -/

/-- One listing record, the dictionary appended per node at source
lines 291-301; column order: Company Name, Logo URL, Job Title,
Job Summary, D-Day, Job URL, Scraped Date. -/
structure Record where
  companyName : String
  logoURL : String
  jobTitle : String
  jobSummary : String
  dDay : String
  jobURL : String
  scrapedDate : String
deriving DecidableEq, Repr

/-! ## Reconciler (source lines 343-344)

main builds combined_df = pd.concat([existing_df, new_df]) and then
drop_duplicates(subset=["Job URL", "Job Title"], keep="last"): every row
is kept exactly when no later row of the concatenation carries the same
(Job URL, Job Title) pair, each survivor staying at the position of the
last occurrence of its key. -/

/-- The deduplication key used by drop_duplicates(subset=["Job URL",
"Job Title"]) at source line 344. -/
def keyOf (r : Record) : String × String := (r.jobURL, r.jobTitle)

/-- Model of DataFrame.drop_duplicates(subset=key, keep="last"): keep a
row exactly when no later row has the same key. -/
def dedupLast : List Record → List Record
  | [] => []
  | r :: rs =>
      if rs.any (fun s => decide (keyOf s = keyOf r)) then dedupLast rs
      else r :: dedupLast rs

/-- The reconciliation of source lines 343-344: concatenate the existing
set and the incoming batch, then drop duplicate keys keeping the last. -/
def reconcile (existing incoming : List Record) : List Record :=
  dedupLast (existing ++ incoming)

/-- Modelled from the spec (for comparison with reconcile, which is the
code): output in first-seen key order, each surviving record substituted
at the position where its key first appeared. -/
def firstSeenKeys (seen : List (String × String)) :
    List (String × String) → List (String × String)
  | [] => []
  | k :: ks =>
      if seen.contains k then firstSeenKeys seen ks
      else k :: firstSeenKeys (k :: seen) ks

/-- Modelled from the spec: reconcile with first-seen key order and
last-record-wins contents, the order the spec asserts. -/
def reconcileSpecFirstSeen (existing incoming : List Record) : List Record :=
  let all := existing ++ incoming
  (firstSeenKeys [] (all.map keyOf)).filterMap
    (fun K => all.reverse.find? (fun r => decide (keyOf r = K)))

/-! ## DOM node model

The listing node is opaque to the core beyond the attribute, text and
selector queries the source performs on it (spec section 3, Raw Item);
each field of the structures below holds the result of one such query. -/

/-- One anchor element as queried by the code: its href, data-linkurl
and data-gno attributes; an absent attribute is none, as BeautifulSoup
Tag.get returns None. -/
structure Anchor where
  href : Option String
  dataLinkurl : Option String
  dataGno : Option String
deriving DecidableEq, Repr

/-- One listing node (li element) with the results of the queries the
source performs:
  cardWrap          = select_one of a.card-wrap            (line 193)
  descriptionAnchor = select_one of div.description a      (line 203)
  companyNameAnchor = select_one of div.company .name a    (line 203)
  hrefAnchors       = select of the anchors carrying href  (line 209)
  descriptionText   = text of div.description              (line 279, empty when absent or blank)
  summaryText       = text of div.addition .summary        (line 280)
  ddayText          = text of div.extra .dday              (line 281)
  logoSrc           = src attribute of span.logo img       (line 282, none when the img or its src attribute is absent)
  btnScrapOnclick   = onclick of button.btnScrap           (line 155, none when the button is absent; an absent attribute reads as the empty string)
  dataMatchGno      = the gno field of the data-match JSON attribute
                      (lines 218-225): some of its rendered value when the
                      attribute is present and truthy, the JSON parses and
                      gno is truthy; none when the attribute is absent or
                      falsy, the JSON is malformed (the exception is
                      swallowed) or gno is missing or falsy
  dmpRecruitNo      = likewise the recruitNo field of the dmp-collection
                      JSON attribute (lines 228-236). -/
structure ListingNode where
  cardWrap : Option Anchor
  descriptionAnchor : Option Anchor
  companyNameAnchor : Option Anchor
  hrefAnchors : List Anchor
  descriptionText : String
  summaryText : String
  ddayText : String
  logoSrc : Option String
  btnScrapOnclick : Option String
  dataMatchGno : Option String
  dmpRecruitNo : Option String
deriving DecidableEq, Repr

/-- BASE_URL of source line 24. -/
def baseURL : String := "https://www.jobkorea.co.kr"

/-- Translation of the url fixer of source lines 42-50: empty strings
pass through; after stripping, protocol-relative urls get the https
scheme, root-relative urls are joined onto the base (urljoin of a
path-less base origin prepends the origin), anything else is returned
as stripped. -/
def fix_url (u : String) (base : String := baseURL) : String :=
  if u = "" then u
  else
    let t := pyStrip u
    if pyStartsWith t "//" then "https:" ++ t
    else if pyStartsWith t "/" then base ++ t
    else t

/-- Translation of the first-valid-href scan of source lines 169-179:
skip blank hrefs, javascript pseudo-urls and the bare hash forms, and
return the first href that starts with http (case-folded) or a slash. -/
def first_valid_href : List Anchor → String
  | [] => ""
  | a :: rest =>
      let href := pyStrip (a.href.getD "")
      if href = "" then first_valid_href rest
      else if pyStartsWith (pyLower href) "javascript" = true ∨ href = "#" ∨ href = "/#" then
        first_valid_href rest
      else if pyStartsWith (pyLower href) "http" = true ∨ pyStartsWith href "/" = true then
        href
      else first_valid_href rest

/-- Tiers 1-2 of the url extraction (source lines 193-200): the
card-wrap anchor href when non-blank and not a javascript pseudo-url,
else its data-linkurl when non-blank. -/
def jobUrlTier12 (li : ListingNode) : Option String :=
  li.cardWrap.bind fun a =>
    let href := pyStrip (a.href.getD "")
    if href ≠ "" ∧ pyStartsWith (pyLower href) "javascript" = false then
      some (fix_url href)
    else
      let dlink := pyStrip (a.dataLinkurl.getD "")
      if dlink ≠ "" then some (fix_url dlink) else none

/-- Tiers 3-4 of the url extraction (source lines 203-208): the first
valid href of one selected anchor. -/
def jobUrlTierSel (cand : Option Anchor) : Option String :=
  cand.bind fun c =>
    let href := first_valid_href [c]
    if href ≠ "" then some (fix_url href) else none

/-- Tier 5 of the url extraction (source lines 209-211): the first
valid href among all href-bearing anchors of the node. -/
def jobUrlTierAny (li : ListingNode) : Option String :=
  let href := first_valid_href li.hrefAnchors
  if href ≠ "" then some (fix_url href) else none

/-- Tier 6 of the url extraction (source lines 214-217): synthesize the
detail-page url from the data-gno attribute of the card-wrap anchor. -/
def jobUrlTierGno (li : ListingNode) : Option String :=
  li.cardWrap.bind fun a =>
    let gno := pyStrip (a.dataGno.getD "")
    if gno ≠ "" then some (fix_url ("/Recruit/GI_Read/" ++ gno)) else none

/-- Tier 7 of the url extraction (source lines 218-225): synthesize the
detail-page url from the gno of the data-match JSON attribute. -/
def jobUrlTierMatch (li : ListingNode) : Option String :=
  li.dataMatchGno.map fun g => fix_url ("/Recruit/GI_Read/" ++ g)

/-- Tier 8 of the url extraction (source lines 228-236): synthesize the
detail-page url from the recruitNo of the dmp-collection attribute. -/
def jobUrlTierDmp (li : ListingNode) : Option String :=
  li.dmpRecruitNo.map fun rno => fix_url ("/Recruit/GI_Read/" ++ rno)

/-- Translation of the url extractor of source lines 181-238: the tier
chain with first success winning and the sentinel as the default. -/
def extract_job_url (li : ListingNode) : String :=
  ((((((jobUrlTier12 li).or (jobUrlTierSel li.descriptionAnchor)).or
      (jobUrlTierSel li.companyNameAnchor)).or (jobUrlTierAny li)).or
      (jobUrlTierGno li)).or ((jobUrlTierMatch li).or (jobUrlTierDmp li))).getD
    "No URL"

/-- The payload processing of the onclick company extractor applied to
the last quoted literal (source lines 162-163): html-unescape, replace
both line-break marker forms by spaces, drop leading underscores,
strip. -/
def onclickPayload (lit : String) : String :=
  let p := htmlUnescape lit
  let p := pyReplace (pyReplace p "<BR>" " ") "&lt;BR&gt;" " "
  pyStrip ⟨p.data.dropWhile (fun c => c = underscoreChar)⟩

/-- Translation of the onclick company extractor of source lines
154-167 (Company Resolver Phase 1): take the last single-quoted literal
of the scrap-button onclick handler, process it, and if the result
contains an underscore return the stripped segment before the first
underscore when non-blank. -/
def extract_company_from_onclick (li : ListingNode) : Option String :=
  match li.btnScrapOnclick with
  | none => none
  | some onclick =>
      match lastQuoted onclick with
      | none => none
      | some lit =>
          let payload := onclickPayload lit
          if pyHasChar payload underscoreChar = true then
            let company := pyStrip ⟨payload.data.takeWhile (fun c => c ≠ underscoreChar)⟩
            if company = "" then none else some company
          else none

/-- Translation of the detail-page company fetch of source lines
240-260 (Company Resolver Phase 2).  The network request and the
candidate-selector chain inside the try block are the injected
collaborator fetch, applied to the fixed url as in line 244; fetch
returns none both when no candidate matched and when the request or
parse raised, since the exception is swallowed at lines 258-259. -/
def fetch_company_from_detail (fetch : String → Option String) (job_url : String) :
    Option String :=
  if job_url = "" ∨ job_url = "No URL" then none
  else fetch (fix_url job_url)

/-- The per-record company resolution of source lines 285-289: Phase 1,
then Phase 2 only if Phase 1 was falsy and the job url is truthy and
not the sentinel, then the sentinel when still falsy. -/
def recordCompany (fetch : String → Option String) (li : ListingNode)
    (job_url : String) : String :=
  let company := extract_company_from_onclick li
  let company :=
    if pyTruthy company = false ∧ job_url ≠ "" ∧ job_url ≠ "No URL" then
      fetch_company_from_detail fetch job_url
    else company
  if pyTruthy company = true then company.getD "" else "No Company Name"

/-- The loop body of source lines 277-301, producing one record per
node; today is the strftime rendering of the datetime.now call of line
299 for this iteration. -/
def mkRecord (fetch : String → Option String) (today : String) (li : ListingNode) :
    Record :=
  let job_url := extract_job_url li
  { companyName := recordCompany fetch li job_url
    logoURL :=
      match li.logoSrc with
      | some src => if src = "" then "No Logo URL" else fix_url src
      | none => "No Logo URL"
    jobTitle := if li.descriptionText = "" then "No Title" else li.descriptionText
    jobSummary := if li.summaryText = "" then "No Summary" else li.summaryText
    dDay := if li.ddayText = "" then "No D-Day" else li.ddayText
    jobURL := job_url
    scrapedDate := today }

/-- The section container: items is the ordered node list selected at
source line 272. -/
structure SectionNode where
  items : List ListingNode
deriving DecidableEq, Repr

/-- The parsed start page; section is the select_one result for the
uniquely identified VVIP container of source line 268, none when the
container is absent from the document. -/
structure Document where
  sectionNode : Option SectionNode
deriving DecidableEq, Repr

/-- The failure condition raised at source line 270 when the section
container is absent. -/
inductive ScrapeError where
  | sectionNotFound
deriving DecidableEq, Repr

/-- Translation of scrape_job_postings (source lines 262-304) behind
the transport boundary: the parsed document is an input, fetch is the
injected detail-page collaborator, and clock i is the strftime-rendered
date of the datetime.now call of the i-th loop iteration (line 299).
The boolean records whether the empty-section warning of line 274 was
printed. -/
def scrape_job_postings (fetch : String → Option String) (clock : Nat → String)
    (doc : Document) : Except ScrapeError (List Record × Bool) :=
  match doc.sectionNode with
  | none => Except.error ScrapeError.sectionNotFound
  | some sec =>
      Except.ok
        (((List.range sec.items.length).zip sec.items).map
          (fun p => mkRecord fetch (clock p.1) p.2),
          sec.items.isEmpty)

/-! ## Concrete nodes and documents used by witnesses -/

/-- A listing node with every query empty. -/
def emptyNode : ListingNode :=
  ⟨none, none, none, [], "", "", "", none, none, none, none⟩

/-- A node whose logo img carries a whitespace-only src attribute. -/
def nodeLogoBlank : ListingNode := { emptyNode with logoSrc := some " " }

/-- A node whose card-wrap anchor href is a bare hash. -/
def nodeHashHref : ListingNode :=
  { emptyNode with cardWrap := some ⟨some "#", none, none⟩ }

/-- A node carrying both a valid card-wrap href and a data-gno
listing-id attribute. -/
def nodeTier1Gno : ListingNode :=
  { emptyNode with cardWrap := some ⟨some "/job/1", none, some "123"⟩ }

/-- A node with a resolvable url and no scrap button. -/
def nodeUrlOnly : ListingNode :=
  { emptyNode with cardWrap := some ⟨some "/job/9", none, none⟩ }

/-- The detail fetcher that never returns a company: no detail fetch
configured, or every Phase 2 attempt failing. -/
def fetchNone : String → Option String := fun _ => none

/-- A single-quote string, to build onclick handler texts. -/
def quoteStr : String := String.singleton quoteChar

/-- An onclick handler whose last quoted literal is the Acme payload. -/
def onclickAcme : String :=
  "addScrKeep(" ++ quoteStr ++ "40000000" ++ quoteStr ++ "," ++ quoteStr ++ "GI" ++ quoteStr ++ "," ++
    quoteStr ++ "_Acme Corp_Senior Engineer" ++ quoteStr ++ ")"

/-- A node whose scrap button carries the Acme onclick handler. -/
def nodeAcme : ListingNode :=
  { emptyNode with btnScrapOnclick := some onclickAcme }

/-- An onclick handler whose last quoted literal has no underscore. -/
def onclickNoUnderscore : String :=
  "addScrKeep(" ++ quoteStr ++ "AcmeOnly" ++ quoteStr ++ ")"

/-- A node whose scrap button carries the underscore-free handler. -/
def nodeNoUnderscore : ListingNode :=
  { emptyNode with btnScrapOnclick := some onclickNoUnderscore }

/-- A two-node document, for the scraped-date counterexample. -/
def docTwoNodes : Document := ⟨some ⟨[emptyNode, emptyNode]⟩⟩

/-- A clock whose first two readings fall on different calendar dates
(a run crossing midnight between the two loop iterations). -/
def clockSplit : Nat → String :=
  fun i => if i = 0 then "2026-10-11" else "2026-10-12"

/-- The slash character, written via its code point. -/
def slashChar : Char := Char.ofNat 47

/-- Modelled from the spec: an absolute URL is one carrying the http or
https scheme of the site's base origin. -/
def isAbsoluteUrl (s : String) : Bool :=
  pyStartsWith (pyLower s) "http"

/-- Concrete existing record with key (u1, T), used in witnesses. -/
def recA : Record :=
  ⟨"No Company Name", "No Logo URL", "T", "S1", "D-7", "u1", "2026-10-01"⟩

/-- Concrete existing record with key (u2, T2), used in witnesses. -/
def recB : Record :=
  ⟨"No Company Name", "No Logo URL", "T2", "S2", "D-5", "u2", "2026-10-01"⟩

/-- Concrete incoming record sharing the key (u1, T) of recA but with
different remaining fields, used in witnesses. -/
def recA2 : Record :=
  ⟨"Acme", "No Logo URL", "T", "S3", "D-3", "u1", "2026-10-12"⟩

/-! ### Reconciler lemmas -/

lemma mem_of_mem_dedupLast {x : Record} : ∀ {l : List Record}, x ∈ dedupLast l → x ∈ l := by
  intro l
  induction l with
  | nil => intro h; exact absurd h (by simp [dedupLast])
  | cons r rs ih =>
      intro h
      by_cases hc : rs.any (fun s => decide (keyOf s = keyOf r)) = true
      · rw [dedupLast, if_pos hc] at h
        exact List.mem_cons_of_mem _ (ih h)
      · rw [dedupLast, if_neg hc] at h
        rcases List.mem_cons.mp h with h1 | h2
        · exact h1 ▸ List.mem_cons_self _ _
        · exact List.mem_cons_of_mem _ (ih h2)

lemma dedupLast_filter (K : String × String) :
    ∀ l : List Record,
      (dedupLast l).filter (fun r => decide (keyOf r = K)) =
        (l.reverse.find? (fun r => decide (keyOf r = K))).toList := by
  intro l
  induction l with
  | nil => simp [dedupLast]
  | cons r rs ih =>
      by_cases hc : rs.any (fun s => decide (keyOf s = keyOf r)) = true
      · rw [dedupLast, if_pos hc]
        rw [List.reverse_cons, List.find?_append]
        cases hfind : rs.reverse.find? (fun r => decide (keyOf r = K)) with
        | some y => simpa [hfind, Option.or] using ih
        | none =>
            have hr : (decide (keyOf r = K) : Bool) = false := by
              by_contra hne
              have hK : keyOf r = K := of_decide_eq_true (Bool.of_not_eq_false hne)
              rcases List.any_eq_true.mp hc with ⟨s, hs, hsk⟩
              have hsK : keyOf s = K := by
                have := of_decide_eq_true hsk
                rw [this, hK]
              have : rs.reverse.find? (fun r => decide (keyOf r = K)) ≠ none := by
                have hsome : (rs.reverse.find? (fun r => decide (keyOf r = K))).isSome := by
                  rw [List.find?_isSome]
                  exact ⟨s, List.mem_reverse.mpr hs, decide_eq_true hsK⟩
                intro hnone
                rw [hnone] at hsome
                simp at hsome
              exact this hfind
            simp only [hfind, Option.or, List.find?]
            rw [hr]
            simpa [hfind] using ih
      · rw [dedupLast, if_neg hc]
        rw [List.reverse_cons, List.find?_append]
        by_cases hK : keyOf r = K
        · have hnone : rs.reverse.find? (fun r => decide (keyOf r = K)) = none := by
            cases hfind : rs.reverse.find? (fun r => decide (keyOf r = K)) with
            | none => rfl
            | some y =>
                exfalso
                have hy := List.find?_some hfind
                have hmem := List.mem_reverse.mp (List.mem_of_find?_eq_some hfind)
                apply hc
                exact List.any_eq_true.mpr ⟨y, hmem, by
                  have := of_decide_eq_true hy
                  exact decide_eq_true (by rw [this, hK])⟩
          simp [List.filter_cons, ih, hnone, Option.or, List.find?, hK]
        · simp only [List.filter_cons, hK]
          rw [if_neg (by simp [hK])]
          rw [ih]
          cases hfind : rs.reverse.find? (fun r => decide (keyOf r = K)) with
          | some y => simp [Option.or]
          | none => simp [Option.or, List.find?, hK]

lemma dedupLast_sublist : ∀ l : List Record, List.Sublist (dedupLast l) l := by
  intro l
  induction l with
  | nil => simp [dedupLast]
  | cons r rs ih =>
      by_cases hc : rs.any (fun s => decide (keyOf s = keyOf r)) = true
      · rw [dedupLast, if_pos hc]
        exact ih.trans (List.sublist_cons_self r rs)
      · rw [dedupLast, if_neg hc]
        exact ih.cons₂ r

lemma dedupLast_keys_nodup : ∀ l : List Record, ((dedupLast l).map keyOf).Nodup := by
  intro l
  induction l with
  | nil => simp [dedupLast]
  | cons r rs ih =>
      by_cases hc : rs.any (fun s => decide (keyOf s = keyOf r)) = true
      · rw [dedupLast, if_pos hc]; exact ih
      · rw [dedupLast, if_neg hc]
        rw [List.map_cons, List.nodup_cons]
        refine ⟨?_, ih⟩
        intro hmem
        rcases List.mem_map.mp hmem with ⟨s, hs, hk⟩
        apply hc
        exact List.any_eq_true.mpr
          ⟨s, mem_of_mem_dedupLast hs, decide_eq_true hk⟩

lemma dedupLast_idem : ∀ l : List Record, dedupLast (dedupLast l) = dedupLast l := by
  intro l
  induction l with
  | nil => simp [dedupLast]
  | cons r rs ih =>
      by_cases hc : rs.any (fun s => decide (keyOf s = keyOf r)) = true
      · rw [dedupLast, if_pos hc]; exact ih
      · rw [dedupLast, if_neg hc]
        have hc2 : (dedupLast rs).any (fun s => decide (keyOf s = keyOf r)) = false := by
          by_contra hne
          rcases List.any_eq_true.mp (Bool.of_not_eq_false hne) with ⟨s, hs, hk⟩
          exact hc (List.any_eq_true.mpr ⟨s, mem_of_mem_dedupLast hs, hk⟩)
        rw [dedupLast, if_neg (by simp [hc2]), ih]

/-! ## Claim theorems for the reconciler -/

/-- C1: for every existing set E holding a record with key K and every
incoming batch I holding a record with the same key K (key = the
(JobURL, JobTitle) pair of source line 344), the reconciled set contains
exactly one record with key K, and that record is the last record with
key K in the concatenation E then I, a member of the incoming batch. -/
theorem reconcile_last_write_wins (E I : List Record) (K : String × String)
    (hE : ∃ e ∈ E, keyOf e = K) (hI : ∃ i ∈ I, keyOf i = K) :
    ∃ w, w ∈ I ∧ keyOf w = K ∧
      (reconcile E I).filter (fun r => decide (keyOf r = K)) = [w] ∧
      (E ++ I).reverse.find? (fun r => decide (keyOf r = K)) = some w := by
  obtain ⟨i, hiI, hiK⟩ := hI
  have hsome : (I.reverse.find? (fun r => decide (keyOf r = K))).isSome := by
    rw [List.find?_isSome]
    exact ⟨i, List.mem_reverse.mpr hiI, decide_eq_true hiK⟩
  obtain ⟨w, hw⟩ := Option.isSome_iff_exists.mp hsome
  have hpw : keyOf w = K := by
    have hb := List.find?_some hw
    simpa using hb
  refine ⟨w, List.mem_reverse.mp (List.mem_of_find?_eq_some hw), hpw, ?_, ?_⟩
  · show (dedupLast (E ++ I)).filter (fun r => decide (keyOf r = K)) = [w]
    rw [dedupLast_filter]
    rw [List.reverse_append, List.find?_append, hw]
    simp [Option.or]
  · rw [List.reverse_append, List.find?_append, hw]
    simp [Option.or]

/-- Witness for C1 at a concrete input: existing [recA] and incoming
[recA2] share the key (u1, T); the reconciled set keeps exactly the
incoming record. -/
theorem reconcile_last_write_wins_witness :
    ∃ w, w ∈ [recA2] ∧ keyOf w = ("u1", "T") ∧
      (reconcile [recA] [recA2]).filter
        (fun r => decide (keyOf r = ("u1", "T"))) = [w] ∧
      ([recA] ++ [recA2]).reverse.find?
        (fun r => decide (keyOf r = ("u1", "T"))) = some w :=
  reconcile_last_write_wins [recA] [recA2] ("u1", "T")
    ⟨recA, by decide⟩ ⟨recA2, by decide⟩

/-- C2 counterexample: the code does not use first-seen key order.  With
existing [recA, recB] and incoming [recA2] (key of recA2 = key of recA),
the code keeps the survivor of the re-sent key at its last occurrence,
after recB, while the claimed first-seen order would put it first. -/
theorem reconcile_order_counterexample :
    reconcile [recA, recB] [recA2] = [recB, recA2] ∧
    reconcileSpecFirstSeen [recA, recB] [recA2] = [recA2, recB] ∧
    reconcile [recA, recB] [recA2] ≠ reconcileSpecFirstSeen [recA, recB] [recA2] := by
  refine ⟨by decide, by decide, by decide⟩

/-- C2 amended: the output of reconcile(E, I) lists the surviving
records in last-occurrence order over the concatenation E then I: it is
a subsequence of E ++ I (so relative order is concatenation order), its
keys are pairwise distinct, and for every key the surviving record is
exactly the last record bearing that key in the concatenation. -/
theorem reconcile_order_last_occurrence (E I : List Record) :
    List.Sublist (reconcile E I) (E ++ I) ∧
    ((reconcile E I).map keyOf).Nodup ∧
    ∀ K : String × String,
      (reconcile E I).filter (fun r => decide (keyOf r = K)) =
        ((E ++ I).reverse.find? (fun r => decide (keyOf r = K))).toList :=
  ⟨dedupLast_sublist (E ++ I), dedupLast_keys_nodup (E ++ I),
    fun K => dedupLast_filter K (E ++ I)⟩

/-- C3: reconciling an empty incoming batch is a no-op:
reconcile(reconcile(E, I), []) equals reconcile(E, I). -/
theorem reconcile_empty_noop (E I : List Record) :
    reconcile (reconcile E I) [] = reconcile E I := by
  show dedupLast (dedupLast (E ++ I) ++ []) = dedupLast (E ++ I)
  rw [List.append_nil]
  exact dedupLast_idem (E ++ I)

/-! ## String helper lemmas -/

lemma dropWhile_dropWhile (p : Char → Bool) (l : List Char) :
    (l.dropWhile p).dropWhile p = l.dropWhile p := by
  induction l with
  | nil => simp
  | cons a t ih =>
      by_cases h : p a = true
      · rw [List.dropWhile_cons_of_pos h]; exact ih
      · rw [List.dropWhile_cons_of_neg h, List.dropWhile_cons_of_neg h]

lemma length_dropWhile_le (p : Char → Bool) (l : List Char) :
    (l.dropWhile p).length ≤ l.length := by
  induction l with
  | nil => simp
  | cons a t ih =>
      by_cases h : p a = true
      · rw [List.dropWhile_cons_of_pos h]
        exact Nat.le_trans ih (Nat.le_succ _)
      · rw [List.dropWhile_cons_of_neg h]

lemma dropWhile_append_self {p : Char → Bool} {u v : List Char}
    (h : (u ++ v).dropWhile p = u ++ v) : u.dropWhile p = u := by
  cases u with
  | nil => simp
  | cons a t =>
      by_cases hp : p a = true
      · exfalso
        rw [List.cons_append, List.dropWhile_cons_of_pos hp] at h
        have hle := length_dropWhile_le p (t ++ v)
        rw [h] at hle
        simp only [List.length_cons] at hle
        omega
      · rw [List.dropWhile_cons_of_neg hp]

lemma strip_chars_idem (p : Char → Bool) (l : List Char) :
    ((((((l.dropWhile p).reverse.dropWhile p).reverse).dropWhile p).reverse).dropWhile p).reverse =
      ((l.dropWhile p).reverse.dropWhile p).reverse := by
  set Z := l.dropWhile p with hZ
  have hZdrop : Z.dropWhile p = Z := by rw [hZ]; exact dropWhile_dropWhile p l
  set m := (Z.reverse.dropWhile p).reverse with hm
  have hsplit : Z = m ++ (Z.reverse.takeWhile p).reverse := by
    have h1 : Z.reverse.takeWhile p ++ Z.reverse.dropWhile p = Z.reverse :=
      List.takeWhile_append_dropWhile p Z.reverse
    have h2 := congrArg List.reverse h1
    rw [List.reverse_append, List.reverse_reverse] at h2
    rw [hm]
    exact h2.symm
  have hmdrop : m.dropWhile p = m := by
    apply dropWhile_append_self (v := (Z.reverse.takeWhile p).reverse)
    rw [← hsplit]
    exact hZdrop
  rw [hmdrop]
  have hrev : m.reverse.dropWhile p = m.reverse := by
    rw [hm, List.reverse_reverse]
    exact dropWhile_dropWhile p Z.reverse
  rw [hrev, List.reverse_reverse]

lemma pyStrip_pyStrip (s : String) : pyStrip (pyStrip s) = pyStrip s := by
  simp only [pyStrip]
  exact congrArg String.mk (strip_chars_idem Char.isWhitespace s.data)

lemma pyStrip_ne_empty (s : String) (c : Char) (hc : c ∈ s.data)
    (hw : c.isWhitespace = false) : pyStrip s ≠ "" := by
  intro h
  have hdata : ((((s.data.dropWhile Char.isWhitespace).reverse).dropWhile
      Char.isWhitespace).reverse) = [] := congrArg String.data h
  rw [List.reverse_eq_nil_iff] at hdata
  have hall : ∀ x ∈ s.data.dropWhile Char.isWhitespace, x.isWhitespace = true := by
    intro x hx
    exact List.dropWhile_eq_nil_iff.mp hdata x (List.mem_reverse.mpr hx)
  have hsplit := List.takeWhile_append_dropWhile Char.isWhitespace s.data
  rw [← hsplit] at hc
  rcases List.mem_append.mp hc with h1 | h2
  · rw [List.mem_takeWhile_imp h1] at hw
    simp at hw
  · rw [hall c h2] at hw
    simp at hw

lemma string_append_ne_empty {a : String} (b : String) (ha : a ≠ "") : a ++ b ≠ "" := by
  intro h
  apply ha
  have hd : a.data ++ b.data = [] := by
    have h2 := congrArg String.data h
    rwa [String.data_append] at h2
  have ha2 : a.data = [] := (List.append_eq_nil.mp hd).1
  cases a with
  | mk d =>
      have ha3 : d = [] := ha2
      subst ha3
      rfl

lemma fix_url_ne_empty {u : String} (h : pyStrip u ≠ "") : fix_url u ≠ "" := by
  have hu : u ≠ "" := by
    intro h0
    apply h
    rw [h0]
    decide
  unfold fix_url
  rw [if_neg hu]
  by_cases h2 : pyStartsWith (pyStrip u) "//" = true
  · rw [if_pos h2]
    exact string_append_ne_empty _ (by decide)
  · rw [if_neg h2]
    by_cases h3 : pyStartsWith (pyStrip u) "/" = true
    · rw [if_pos h3]
      exact string_append_ne_empty _ (by decide)
    · rw [if_neg h3]
      exact h

/-! ## URL extractor lemmas -/

lemma good_fix_url {c : String} (hc : c ≠ "") (hcs : pyStrip c = c) :
    fix_url c ≠ "" ∧ ∃ d, d ≠ "" ∧ fix_url c = fix_url d := by
  refine ⟨fix_url_ne_empty ?_, c, hc, rfl⟩
  rw [hcs]
  exact hc

lemma good_of_stripped {v : String} (hne : v ≠ "") (hv : ∃ r, v = pyStrip r) :
    fix_url v ≠ "" ∧ ∃ d, d ≠ "" ∧ fix_url v = fix_url d := by
  obtain ⟨r, hr⟩ := hv
  exact good_fix_url hne (by rw [hr]; exact pyStrip_pyStrip r)

lemma gi_read_good (g : String) :
    fix_url ("/Recruit/GI_Read/" ++ g) ≠ "" ∧
    ∃ d, d ≠ "" ∧ fix_url ("/Recruit/GI_Read/" ++ g) = fix_url d := by
  refine ⟨fix_url_ne_empty (pyStrip_ne_empty _ slashChar ?_ (by decide)),
    "/Recruit/GI_Read/" ++ g, string_append_ne_empty g (by decide), rfl⟩
  rw [String.data_append]
  exact List.mem_append.mpr (Or.inl (by decide))

lemma first_valid_href_stripped : ∀ anchors : List Anchor,
    first_valid_href anchors = "" ∨ ∃ r : String, first_valid_href anchors = pyStrip r := by
  intro anchors
  induction anchors with
  | nil => left; rfl
  | cons a rest ih =>
      simp only [first_valid_href]
      by_cases h1 : pyStrip (a.href.getD "") = ""
      · rw [if_pos h1]; exact ih
      · rw [if_neg h1]
        by_cases h2 : pyStartsWith (pyLower (pyStrip (a.href.getD ""))) "javascript" = true ∨
            pyStrip (a.href.getD "") = "#" ∨ pyStrip (a.href.getD "") = "/#"
        · rw [if_pos h2]; exact ih
        · rw [if_neg h2]
          by_cases h3 : pyStartsWith (pyLower (pyStrip (a.href.getD ""))) "http" = true ∨
              pyStartsWith (pyStrip (a.href.getD "")) "/" = true
          · rw [if_pos h3]
            right
            exact ⟨a.href.getD "", rfl⟩
          · rw [if_neg h3]; exact ih

lemma first_valid_href_valid : ∀ anchors : List Anchor,
    first_valid_href anchors = "" ∨
      (first_valid_href anchors ≠ "#" ∧ first_valid_href anchors ≠ "/#" ∧
       pyStartsWith (pyLower (first_valid_href anchors)) "javascript" = false ∧
       (pyStartsWith (pyLower (first_valid_href anchors)) "http" = true ∨
        pyStartsWith (first_valid_href anchors) "/" = true)) := by
  intro anchors
  induction anchors with
  | nil => left; rfl
  | cons a rest ih =>
      simp only [first_valid_href]
      by_cases h1 : pyStrip (a.href.getD "") = ""
      · rw [if_pos h1]; exact ih
      · rw [if_neg h1]
        by_cases h2 : pyStartsWith (pyLower (pyStrip (a.href.getD ""))) "javascript" = true ∨
            pyStrip (a.href.getD "") = "#" ∨ pyStrip (a.href.getD "") = "/#"
        · rw [if_pos h2]; exact ih
        · rw [if_neg h2]
          by_cases h3 : pyStartsWith (pyLower (pyStrip (a.href.getD ""))) "http" = true ∨
              pyStartsWith (pyStrip (a.href.getD "")) "/" = true
          · rw [if_pos h3]
            right
            push_neg at h2
            refine ⟨h2.2.1, h2.2.2, ?_, h3⟩
            cases hb : pyStartsWith (pyLower (pyStrip (a.href.getD ""))) "javascript" with
            | false => rfl
            | true => exact absurd hb h2.1
          · rw [if_neg h3]; exact ih

lemma tier12_good (li : ListingNode) :
    ∀ s, jobUrlTier12 li = some s → s ≠ "" ∧ ∃ c, c ≠ "" ∧ s = fix_url c := by
  intro s hs
  cases hcw : li.cardWrap with
  | none => simp [jobUrlTier12, hcw] at hs
  | some a =>
      simp only [jobUrlTier12, hcw, Option.some_bind] at hs
      by_cases h1 : pyStrip (a.href.getD "") ≠ "" ∧
          pyStartsWith (pyLower (pyStrip (a.href.getD ""))) "javascript" = false
      · rw [if_pos h1] at hs
        have hss := Option.some.inj hs
        rw [← hss]
        exact good_fix_url h1.1 (pyStrip_pyStrip _)
      · rw [if_neg h1] at hs
        by_cases h2 : pyStrip (a.dataLinkurl.getD "") ≠ ""
        · rw [if_pos h2] at hs
          have hss := Option.some.inj hs
          rw [← hss]
          exact good_fix_url h2 (pyStrip_pyStrip _)
        · rw [if_neg h2] at hs
          cases hs

lemma tierSel_good (cand : Option Anchor) :
    ∀ s, jobUrlTierSel cand = some s → s ≠ "" ∧ ∃ c, c ≠ "" ∧ s = fix_url c := by
  intro s hs
  cases hc : cand with
  | none => simp [jobUrlTierSel, hc] at hs
  | some c =>
      simp only [jobUrlTierSel, hc, Option.some_bind] at hs
      by_cases h1 : first_valid_href [c] ≠ ""
      · rw [if_pos h1] at hs
        have hss := Option.some.inj hs
        rw [← hss]
        exact good_of_stripped h1
          ((first_valid_href_stripped [c]).resolve_left h1)
      · rw [if_neg h1] at hs
        cases hs

lemma tierAny_good (li : ListingNode) :
    ∀ s, jobUrlTierAny li = some s → s ≠ "" ∧ ∃ c, c ≠ "" ∧ s = fix_url c := by
  intro s hs
  simp only [jobUrlTierAny] at hs
  by_cases h1 : first_valid_href li.hrefAnchors ≠ ""
  · rw [if_pos h1] at hs
    have hss := Option.some.inj hs
    rw [← hss]
    exact good_of_stripped h1
      ((first_valid_href_stripped li.hrefAnchors).resolve_left h1)
  · rw [if_neg h1] at hs
    cases hs

lemma tierGno_good (li : ListingNode) :
    ∀ s, jobUrlTierGno li = some s → s ≠ "" ∧ ∃ c, c ≠ "" ∧ s = fix_url c := by
  intro s hs
  cases hcw : li.cardWrap with
  | none => simp [jobUrlTierGno, hcw] at hs
  | some a =>
      simp only [jobUrlTierGno, hcw, Option.some_bind] at hs
      by_cases h1 : pyStrip (a.dataGno.getD "") ≠ ""
      · rw [if_pos h1] at hs
        have hss := Option.some.inj hs
        rw [← hss]
        exact gi_read_good _
      · rw [if_neg h1] at hs
        cases hs

lemma tierMatch_good (li : ListingNode) :
    ∀ s, jobUrlTierMatch li = some s → s ≠ "" ∧ ∃ c, c ≠ "" ∧ s = fix_url c := by
  intro s hs
  cases hdm : li.dataMatchGno with
  | none => simp [jobUrlTierMatch, hdm] at hs
  | some g =>
      simp only [jobUrlTierMatch, hdm, Option.map_some] at hs
      have hss := Option.some.inj hs
      rw [← hss]
      exact gi_read_good g

lemma tierDmp_good (li : ListingNode) :
    ∀ s, jobUrlTierDmp li = some s → s ≠ "" ∧ ∃ c, c ≠ "" ∧ s = fix_url c := by
  intro s hs
  cases hdm : li.dmpRecruitNo with
  | none => simp [jobUrlTierDmp, hdm] at hs
  | some g =>
      simp only [jobUrlTierDmp, hdm, Option.map_some] at hs
      have hss := Option.some.inj hs
      rw [← hss]
      exact gi_read_good g

lemma option_or_forall {P : String → Prop} : ∀ {o1 o2 : Option String},
    (∀ s, o1 = some s → P s) → (∀ s, o2 = some s → P s) →
    ∀ s, o1.or o2 = some s → P s := by
  intro o1 o2 h1 h2 s hs
  cases o1 with
  | some x => exact h1 s hs
  | none => exact h2 s hs

lemma extract_job_url_cases (li : ListingNode) :
    extract_job_url li = "No URL" ∨
      (extract_job_url li ≠ "" ∧ ∃ c, c ≠ "" ∧ extract_job_url li = fix_url c) := by
  have hchain :=
    option_or_forall (option_or_forall (option_or_forall (option_or_forall
      (option_or_forall (tier12_good li) (tierSel_good li.descriptionAnchor))
      (tierSel_good li.companyNameAnchor)) (tierAny_good li)) (tierGno_good li))
      (option_or_forall (tierMatch_good li) (tierDmp_good li))
  have hdef : extract_job_url li =
      (((((((jobUrlTier12 li).or (jobUrlTierSel li.descriptionAnchor)).or
        (jobUrlTierSel li.companyNameAnchor)).or (jobUrlTierAny li)).or
        (jobUrlTierGno li)).or ((jobUrlTierMatch li).or (jobUrlTierDmp li))).getD
        "No URL") := rfl
  cases hO : ((((((jobUrlTier12 li).or (jobUrlTierSel li.descriptionAnchor)).or
      (jobUrlTierSel li.companyNameAnchor)).or (jobUrlTierAny li)).or
      (jobUrlTierGno li)).or ((jobUrlTierMatch li).or (jobUrlTierDmp li))) with
  | none =>
      left
      rw [hdef, hO]
      rfl
  | some s =>
      right
      rw [hdef, hO]
      exact hchain s hO

lemma extract_job_url_ne_empty (li : ListingNode) : extract_job_url li ≠ "" := by
  rcases extract_job_url_cases li with h | h
  · rw [h]; decide
  · exact h.1

/-! ## Company and record lemmas -/

lemma pyTruthy_getD {o : Option String} (h : pyTruthy o = true) : o.getD "" ≠ "" := by
  cases o with
  | none => simp [pyTruthy] at h
  | some s =>
      simp only [pyTruthy, decide_eq_true_eq] at h
      simpa using h

lemma extract_company_ne_some_empty (li : ListingNode) :
    extract_company_from_onclick li ≠ some "" := by
  intro h
  unfold extract_company_from_onclick at h
  repeat' split at h
  all_goals simp_all

lemma final_if_ne (o : Option String) :
    (if pyTruthy o = true then o.getD "" else "No Company Name") ≠ "" := by
  split
  · rename_i h
    exact pyTruthy_getD h
  · decide

lemma recordCompany_ne_empty (f : String → Option String) (li : ListingNode)
    (url : String) : recordCompany f li url ≠ "" := by
  simp only [recordCompany]
  apply final_if_ne

lemma recordCompany_phase1 {li : ListingNode} {c : String}
    (h : extract_company_from_onclick li = some c) (f : String → Option String)
    (url : String) : recordCompany f li url = c := by
  have hc : c ≠ "" := by
    intro h0
    subst h0
    exact extract_company_ne_some_empty li h
  simp [recordCompany, h, pyTruthy, hc]

lemma recordCompany_none_failed {li : ListingNode} {url : String}
    {f : String → Option String} (h : extract_company_from_onclick li = none)
    (hf : fetch_company_from_detail f url = none) :
    recordCompany f li url = "No Company Name" := by
  simp [recordCompany, h, hf, pyTruthy]

lemma recordCompany_none_sentinel {li : ListingNode} {f : String → Option String}
    (h : extract_company_from_onclick li = none) :
    recordCompany f li "No URL" = "No Company Name" := by
  simp [recordCompany, h, pyTruthy]

lemma mkRecord_company (f : String → Option String) (d : String) (li : ListingNode) :
    (mkRecord f d li).companyName = recordCompany f li (extract_job_url li) := rfl

lemma mkRecord_jobURL (f : String → Option String) (d : String) (li : ListingNode) :
    (mkRecord f d li).jobURL = extract_job_url li := rfl

lemma mkRecord_date (f : String → Option String) (d : String) (li : ListingNode) :
    (mkRecord f d li).scrapedDate = d := rfl

lemma mkRecord_fields (f : String → Option String) (d : String) (li : ListingNode)
    (hd : d ≠ "")
    (hlogo : ∀ src, li.logoSrc = some src → src = "" ∨ pyStrip src ≠ "") :
    (mkRecord f d li).companyName ≠ "" ∧ (mkRecord f d li).logoURL ≠ "" ∧
    (mkRecord f d li).jobTitle ≠ "" ∧ (mkRecord f d li).jobSummary ≠ "" ∧
    (mkRecord f d li).dDay ≠ "" ∧ (mkRecord f d li).jobURL ≠ "" ∧
    (mkRecord f d li).scrapedDate ≠ "" := by
  refine ⟨recordCompany_ne_empty f li (extract_job_url li), ?_, ?_, ?_, ?_,
    extract_job_url_ne_empty li, hd⟩
  · show (match li.logoSrc with
      | some src => if src = "" then "No Logo URL" else fix_url src
      | none => "No Logo URL") ≠ ""
    cases hsrc : li.logoSrc with
    | none => decide
    | some src =>
        show (if src = "" then "No Logo URL" else fix_url src) ≠ ""
        rcases hlogo src hsrc with h1 | h2
        · rw [if_pos h1]
          decide
        · have hsrcne : src ≠ "" := by
            intro h0
            apply h2
            rw [h0]
            decide
          rw [if_neg hsrcne]
          exact fix_url_ne_empty h2
  · show (if li.descriptionText = "" then "No Title" else li.descriptionText) ≠ ""
    split
    · decide
    · rename_i h
      exact h
  · show (if li.summaryText = "" then "No Summary" else li.summaryText) ≠ ""
    split
    · decide
    · rename_i h
      exact h
  · show (if li.ddayText = "" then "No D-Day" else li.ddayText) ≠ ""
    split
    · decide
    · rename_i h
      exact h

lemma scrape_rows (f : String → Option String) (clock : Nat → String)
    (sec : SectionNode) :
    scrape_job_postings f clock ⟨some sec⟩ =
      Except.ok (((List.range sec.items.length).zip sec.items).map
        (fun p => mkRecord f (clock p.1) p.2), sec.items.isEmpty) := rfl

lemma scrape_rows_length (f : String → Option String) (clock : Nat → String)
    (sec : SectionNode) :
    (((List.range sec.items.length).zip sec.items).map
      (fun p => mkRecord f (clock p.1) p.2)).length = sec.items.length := by
  rw [List.length_map, List.length_zip, List.length_range, Nat.min_self]

lemma scrape_rows_mem {f : String → Option String} {clock : Nat → String}
    {sec : SectionNode} {r : Record}
    (hr : r ∈ ((List.range sec.items.length).zip sec.items).map
      (fun p => mkRecord f (clock p.1) p.2)) :
    ∃ i li, li ∈ sec.items ∧ r = mkRecord f (clock i) li := by
  rcases List.mem_map.mp hr with ⟨p, hp, hmk⟩
  exact ⟨p.1, p.2, (List.of_mem_zip hp).2, hmk.symm⟩

/-! ## Claim theorems for the parser and extractors -/

/-- C4 counterexample: a logo img whose src attribute is non-empty but
whitespace-only produces a record whose Logo URL field is the empty
string (the url fixer strips it to nothing), so not every field of
every record is non-blank. -/
theorem parse_nonblank_counterexample :
    scrape_job_postings fetchNone (fun _ => "2026-10-12") ⟨some ⟨[nodeLogoBlank]⟩⟩ =
      Except.ok ([mkRecord fetchNone "2026-10-12" nodeLogoBlank], false) ∧
    (mkRecord fetchNone "2026-10-12" nodeLogoBlank).logoURL = "" :=
  ⟨rfl, by decide⟩

/-- C4 amended: when the section container is present, the parse yields
exactly one record per listing node, and provided the per-call date is
non-blank and no logo src attribute is non-empty but whitespace-only,
every field of every record is non-blank (a real value or the field's
sentinel). -/
theorem parse_total_fields (fetch : String → Option String) (clock : Nat → String)
    (sec : SectionNode) (hclock : ∀ i, clock i ≠ "")
    (hlogo : ∀ li ∈ sec.items, ∀ src, li.logoSrc = some src →
      src = "" ∨ pyStrip src ≠ "") :
    ∃ rows warned,
      scrape_job_postings fetch clock ⟨some sec⟩ = Except.ok (rows, warned) ∧
      rows.length = sec.items.length ∧
      ∀ r ∈ rows, r.companyName ≠ "" ∧ r.logoURL ≠ "" ∧ r.jobTitle ≠ "" ∧
        r.jobSummary ≠ "" ∧ r.dDay ≠ "" ∧ r.jobURL ≠ "" ∧ r.scrapedDate ≠ "" := by
  refine ⟨_, _, scrape_rows fetch clock sec, scrape_rows_length fetch clock sec, ?_⟩
  intro r hr
  rcases scrape_rows_mem hr with ⟨i, li, hli, hrec⟩
  rw [hrec]
  exact mkRecord_fields fetch (clock i) li (hclock i) (hlogo li hli)

/-- Witness for the amended C4 at a concrete input: one node, constant
date, no logo attribute at all. -/
theorem parse_total_fields_witness :
    ∃ rows warned,
      scrape_job_postings fetchNone (fun _ => "2026-10-12") ⟨some ⟨[nodeAcme]⟩⟩ =
        Except.ok (rows, warned) ∧
      rows.length = (SectionNode.mk [nodeAcme]).items.length ∧
      ∀ r ∈ rows, r.companyName ≠ "" ∧ r.logoURL ≠ "" ∧ r.jobTitle ≠ "" ∧
        r.jobSummary ≠ "" ∧ r.dDay ≠ "" ∧ r.jobURL ≠ "" ∧ r.scrapedDate ≠ "" :=
  parse_total_fields fetchNone (fun _ => "2026-10-12") ⟨[nodeAcme]⟩
    (by
      intro i
      show ("2026-10-12" : String) ≠ ""
      decide)
    (by
      intro li hli src hsrc
      have hli2 : li = nodeAcme := by simpa using hli
      subst hli2
      simp [nodeAcme, emptyNode] at hsrc)

/-- C5 counterexample: a card-wrap anchor whose href is a bare hash is
not skipped at tier 1; the resolver returns the hash itself, which is
neither the sentinel nor an absolute url. -/
theorem url_absolute_counterexample :
    extract_job_url nodeHashHref = "#" ∧ ("#" : String) ≠ "No URL" ∧
    isAbsoluteUrl "#" = false :=
  ⟨by decide, by decide, by decide⟩

/-- C5 amended: the resolver returns the sentinel or the url fixer
applied to some non-empty candidate (hence never the empty string); the
fixer absolutizes protocol-relative and root-relative candidates
against the base origin and returns every other candidate unchanged
after stripping; a bare-hash tier-1 href is returned as the hash (tier
1 skips only javascript pseudo-urls); the scan used by tiers 3 to 5
admits only http-prefixed or slash-prefixed hrefs and skips the hash
forms and javascript pseudo-urls. -/
theorem url_resolver_amended :
    (∀ li : ListingNode, extract_job_url li = "No URL" ∨
       (extract_job_url li ≠ "" ∧ ∃ c, c ≠ "" ∧ extract_job_url li = fix_url c)) ∧
    (∀ s : String, s ≠ "" →
       (pyStartsWith (pyStrip s) "//" = true → fix_url s = "https:" ++ pyStrip s) ∧
       (pyStartsWith (pyStrip s) "//" = false → pyStartsWith (pyStrip s) "/" = true →
         fix_url s = baseURL ++ pyStrip s) ∧
       (pyStartsWith (pyStrip s) "//" = false → pyStartsWith (pyStrip s) "/" = false →
         fix_url s = pyStrip s)) ∧
    (∀ li : ListingNode, ∀ a : Anchor, li.cardWrap = some a →
       pyStrip (a.href.getD "") = "#" → extract_job_url li = "#") ∧
    (∀ anchors : List Anchor, first_valid_href anchors = "" ∨
       (first_valid_href anchors ≠ "#" ∧ first_valid_href anchors ≠ "/#" ∧
        pyStartsWith (pyLower (first_valid_href anchors)) "javascript" = false ∧
        (pyStartsWith (pyLower (first_valid_href anchors)) "http" = true ∨
         pyStartsWith (first_valid_href anchors) "/" = true))) := by
  refine ⟨extract_job_url_cases, ?_, ?_, first_valid_href_valid⟩
  · intro s hs
    refine ⟨?_, ?_, ?_⟩
    · intro h2
      unfold fix_url
      rw [if_neg hs, if_pos h2]
    · intro h2 h3
      unfold fix_url
      rw [if_neg hs, if_neg (by rw [h2]; decide), if_pos h3]
    · intro h2 h3
      unfold fix_url
      rw [if_neg hs, if_neg (by rw [h2]; decide), if_neg (by rw [h3]; decide)]
  · intro li a hcw hh
    have h12 : jobUrlTier12 li = some "#" := by
      simp only [jobUrlTier12, hcw, Option.some_bind, hh]
      rw [if_pos ⟨by decide, by decide⟩]
      decide
    unfold extract_job_url
    rw [h12]
    rfl

/-- Witness for the amended C5 at concrete inputs: the bare-hash href
passes through, and both relative url shapes are absolutized. -/
theorem url_resolver_amended_witness :
    extract_job_url nodeHashHref = "#" ∧
    fix_url "//cdn.example.com/a.png" = "https://cdn.example.com/a.png" ∧
    fix_url "/job/1" = "https://www.jobkorea.co.kr/job/1" := by
  refine ⟨url_resolver_amended.2.2.1 nodeHashHref ⟨some "#", none, none⟩ rfl (by decide),
    ?_, ?_⟩
  · have h := (url_resolver_amended.2.1 "//cdn.example.com/a.png" (by decide)).1 (by decide)
    rw [h]
    decide
  · have h := ((url_resolver_amended.2.1 "/job/1" (by decide)).2.1 (by decide)) (by decide)
    rw [h]
    decide

/-- C6: a node carrying both a valid (non-script, non-hash) card-wrap
href and a non-blank data-gno listing id resolves through tier 1 to the
fixed href, not through the listing-id synthesis tier. -/
theorem url_tier1_wins (li : ListingNode) (a : Anchor)
    (hcw : li.cardWrap = some a)
    (h1 : pyStrip (a.href.getD "") ≠ "")
    (h2 : pyStartsWith (pyLower (pyStrip (a.href.getD ""))) "javascript" = false)
    (h3 : pyStrip (a.href.getD "") ≠ "#")
    (g : String) (hg : a.dataGno = some g) (hgne : pyStrip g ≠ "") :
    extract_job_url li = fix_url (pyStrip (a.href.getD "")) := by
  have h12 : jobUrlTier12 li = some (fix_url (pyStrip (a.href.getD ""))) := by
    simp only [jobUrlTier12, hcw, Option.some_bind]
    rw [if_pos ⟨h1, h2⟩]
  unfold extract_job_url
  rw [h12]
  rfl

/-- Witness for C6 at a concrete input: href and data-gno both present;
the result is the absolutized href, not the GI_Read synthesis. -/
theorem url_tier1_wins_witness :
    extract_job_url nodeTier1Gno =
      fix_url (pyStrip ((Anchor.mk (some "/job/1") none (some "123")).href.getD "")) ∧
    extract_job_url nodeTier1Gno = "https://www.jobkorea.co.kr/job/1" ∧
    extract_job_url nodeTier1Gno ≠ "https://www.jobkorea.co.kr/Recruit/GI_Read/123" :=
  ⟨url_tier1_wins nodeTier1Gno ⟨some "/job/1", none, some "123"⟩ rfl (by decide)
      (by decide) (by decide) "123" rfl (by decide),
    by decide, by decide⟩

/-- C7: Phase 1 of the company resolver takes the last single-quoted
literal of the scrap-button handler, processes it, and splits on the
first underscore: the Acme payload yields the company Acme Corp, and a
payload without underscore yields no Phase-1 result, so with no detail
fetch configured the record carries the sentinel. -/
theorem company_phase1 (li : ListingNode) (oc : String) (d : String)
    (hb : li.btnScrapOnclick = some oc) :
    (lastQuoted oc = some "_Acme Corp_Senior Engineer" →
       extract_company_from_onclick li = some "Acme Corp" ∧
       (mkRecord fetchNone d li).companyName = "Acme Corp") ∧
    (∀ lit, lastQuoted oc = some lit →
       pyHasChar (onclickPayload lit) underscoreChar = false →
       extract_company_from_onclick li = none ∧
       (mkRecord fetchNone d li).companyName = "No Company Name") := by
  constructor
  · intro hq
    have hext : extract_company_from_onclick li = some "Acme Corp" := by
      simp only [extract_company_from_onclick, hb, hq]
      decide
    refine ⟨hext, ?_⟩
    rw [mkRecord_company]
    exact recordCompany_phase1 hext fetchNone (extract_job_url li)
  · intro lit hq hnou
    have hext : extract_company_from_onclick li = none := by
      simp only [extract_company_from_onclick, hb, hq]
      rw [if_neg (by simp [hnou])]
    refine ⟨hext, ?_⟩
    rw [mkRecord_company]
    apply recordCompany_none_failed hext
    unfold fetch_company_from_detail
    split
    · rfl
    · rfl

/-- Witness for C7 at concrete inputs: a handler whose last literal is
the Acme payload, and a handler whose last literal has no underscore. -/
theorem company_phase1_witness :
    (extract_company_from_onclick nodeAcme = some "Acme Corp" ∧
     (mkRecord fetchNone "2026-10-12" nodeAcme).companyName = "Acme Corp") ∧
    (extract_company_from_onclick nodeNoUnderscore = none ∧
     (mkRecord fetchNone "2026-10-12" nodeNoUnderscore).companyName = "No Company Name") :=
  ⟨(company_phase1 nodeAcme onclickAcme "2026-10-12" rfl).1 (by decide),
   (company_phase1 nodeNoUnderscore onclickNoUnderscore "2026-10-12" rfl).2 "AcmeOnly"
     (by decide) (by decide)⟩

/-- C8: Phase 2 runs exactly when Phase 1 yielded nothing and a
non-sentinel job url was resolved (otherwise the record does not depend
on the detail fetcher at all); a failing Phase 2 degrades the record to
the company sentinel; and the batch always yields one record per node
whatever the fetcher does. -/
theorem company_phase2_gating (li : ListingNode) (d : String)
    (f g : String → Option String) :
    (¬(extract_company_from_onclick li = none ∧ extract_job_url li ≠ "No URL") →
       mkRecord f d li = mkRecord g d li) ∧
    (extract_company_from_onclick li = none → extract_job_url li ≠ "No URL" →
       f (fix_url (extract_job_url li)) = none →
       (mkRecord f d li).companyName = "No Company Name") ∧
    (∀ sec : SectionNode, ∀ clock : Nat → String, ∃ rows warned,
       scrape_job_postings f clock ⟨some sec⟩ = Except.ok (rows, warned) ∧
       rows.length = sec.items.length) := by
  refine ⟨?_, ?_, ?_⟩
  · intro hnot
    have hcomp : recordCompany f li (extract_job_url li) =
        recordCompany g li (extract_job_url li) := by
      cases hph : extract_company_from_onclick li with
      | some c =>
          rw [recordCompany_phase1 hph f (extract_job_url li),
            recordCompany_phase1 hph g (extract_job_url li)]
      | none =>
          have hurl : extract_job_url li = "No URL" := by
            by_contra hne
            exact hnot ⟨hph, hne⟩
          rw [hurl, recordCompany_none_sentinel hph, recordCompany_none_sentinel hph]
    simp only [mkRecord]
    rw [hcomp]
  · intro hph hurl hf
    rw [mkRecord_company]
    apply recordCompany_none_failed hph
    unfold fetch_company_from_detail
    rw [if_neg (not_or_intro (extract_job_url_ne_empty li) hurl)]
    exact hf
  · intro sec clock
    exact ⟨_, _, scrape_rows f clock sec, scrape_rows_length f clock sec⟩

/-- Witness for C8 at a concrete input: no scrap button, a resolvable
url, and a fetcher that always fails; the record degrades to the
sentinel. -/
theorem company_phase2_gating_witness :
    (mkRecord fetchNone "2026-10-12" nodeUrlOnly).companyName = "No Company Name" :=
  (company_phase2_gating nodeUrlOnly "2026-10-12" fetchNone fetchNone).2.1
    (by decide) (by decide) rfl

/-- C9: the parse fails with the section-not-found condition exactly
when the section container is absent; a present container with zero
listing nodes is not an error: the parse returns the empty sequence and
prints the warning. -/
theorem parse_section_errors (fetch : String → Option String) (clock : Nat → String)
    (doc : Document) :
    (scrape_job_postings fetch clock doc = Except.error ScrapeError.sectionNotFound ↔
       doc.sectionNode = none) ∧
    (∀ sec, doc.sectionNode = some sec → sec.items = [] →
       scrape_job_postings fetch clock doc = Except.ok ([], true)) := by
  obtain ⟨sn⟩ := doc
  cases sn with
  | none =>
      refine ⟨⟨fun _ => rfl, fun _ => rfl⟩, ?_⟩
      intro sec hsec
      cases hsec
  | some sec =>
      refine ⟨⟨fun h => ?_, fun h => ?_⟩, ?_⟩
      · have hcontra := (scrape_rows fetch clock sec).symm.trans h
        cases hcontra
      · cases h
      · intro sec2 hsec hitems
        have hs2 : sec = sec2 := Option.some.inj hsec
        subst hs2
        simp [scrape_job_postings, hitems]

/-- Witness for C9 at concrete inputs: an empty section warns and
returns no records; an absent container raises the condition. -/
theorem parse_section_errors_witness :
    scrape_job_postings fetchNone clockSplit ⟨some ⟨[]⟩⟩ = Except.ok ([], true) ∧
    scrape_job_postings fetchNone clockSplit ⟨none⟩ =
      Except.error ScrapeError.sectionNotFound :=
  ⟨(parse_section_errors fetchNone clockSplit ⟨some ⟨[]⟩⟩).2 ⟨[]⟩ rfl rfl,
   (parse_section_errors fetchNone clockSplit ⟨none⟩).1.mpr rfl⟩

/-- C10 counterexample: the date is stamped per record inside the loop
(one datetime.now call per iteration), so a run whose clock readings
straddle midnight produces records with different stamps in one call. -/
theorem scraped_date_counterexample :
    (scrape_job_postings fetchNone clockSplit docTwoNodes).toOption.map
        (fun p => p.1.map Record.scrapedDate) = some ["2026-10-11", "2026-10-12"] ∧
    ("2026-10-11" : String) ≠ "2026-10-12" :=
  ⟨by decide, by decide⟩

/-- C10 amended: each record is stamped with the date read at its own
loop iteration; whenever every reading of one run returns the same date
(the run does not cross midnight), all records of the batch share that
stamp. -/
theorem scraped_date_uniform (fetch : String → Option String) (clock : Nat → String)
    (d : String) (sec : SectionNode) (hc : ∀ i, clock i = d) :
    ∃ rows warned,
      scrape_job_postings fetch clock ⟨some sec⟩ = Except.ok (rows, warned) ∧
      ∀ r ∈ rows, r.scrapedDate = d := by
  refine ⟨_, _, scrape_rows fetch clock sec, ?_⟩
  intro r hr
  rcases scrape_rows_mem hr with ⟨i, li, _, hrec⟩
  rw [hrec, mkRecord_date, hc i]

/-- Witness for the amended C10 at a concrete input: two nodes under a
constant clock share the stamp. -/
theorem scraped_date_uniform_witness :
    ∃ rows warned,
      scrape_job_postings fetchNone (fun _ => "2026-10-12")
        ⟨some ⟨[emptyNode, emptyNode]⟩⟩ = Except.ok (rows, warned) ∧
      ∀ r ∈ rows, r.scrapedDate = "2026-10-12" :=
  scraped_date_uniform fetchNone (fun _ => "2026-10-12") "2026-10-12"
    ⟨[emptyNode, emptyNode]⟩ (fun _ => rfl)
